import Mathlib

/-!
Verification of the Route Filtering Decision Engine of the
`next-build-filter` repository.

The engine lives in `lib/next-build-filter-plugin.js` (class
`NextBuildFilterPlugin`); its decision core consists of the methods
`normalizePath`, `isPageFile`, `extractRoutePath` and `shouldExcludePage`,
composed per discovered file by the webpack `beforeResolve` hook
(`isPageFile` guard followed by `shouldExcludePage`).

Strings are modelled as `List Char` (`Str`).  JavaScript `toLowerCase` is
modelled by `Char.toLower` (ASCII case mapping, which is all the engine
relies on).  The external `minimatch` glob library is modelled by a glob
matcher covering the features exercised by the engine: `/`-separated
segments, `*`, `**`, `?`, character classes and backslash escapes (brace
alternation and `!`-negated whole patterns are not modelled; no theorem
depends on them).  JavaScript `RegExp` construction and `test` are
modelled by a parser and matcher for the subset `^ $ . | ( ) [ ] * + ?`
with the common escapes; a pattern outside the subset or syntactically
invalid parses to `none`, mirroring the `try/catch` in the source that
treats a throwing `new RegExp` as never matching.
-/

namespace NBF

/-- Strings of the JavaScript source, modelled as lists of characters. -/
abbrev Str := List Char

/-- The options object built in the constructor of `NextBuildFilterPlugin`
(lib/next-build-filter-plugin.js, lines 12-36).  Only the fields read by
the decision core are kept. -/
structure FilterOptions where
  includedPages : List Str
  excludedPages : List Str
  excludePatterns : List Str
  pagesDir : Str
  appDir : Str
  supportAppRouter : Bool
  supportPagesRouter : Bool
deriving Repr, DecidableEq

/-- The constructor defaults: empty pattern lists, `pagesDir = "pages"`,
`appDir = "app"`, both routers supported. -/
def defaultOptions : FilterOptions :=
  { includedPages := []
    excludedPages := []
    excludePatterns := []
    pagesDir := "pages".data
    appDir := "app".data
    supportAppRouter := true
    supportPagesRouter := true }

/-! ### PathNormalizer -/

/-- One step of the `replace(/\\/g, '/')` in `normalizePath`. -/
def slashify (c : Char) : Char :=
  if c = '\\' then '/' else c

/-- `normalizePath` (lib/next-build-filter-plugin.js, lines 351-356):
replaces every backslash by a forward slash, then lowercases.  The
JavaScript guard `!filePath` returns the empty string for an empty
string; the `undefined`/non-string part of that guard is modelled by
`normalizePathOr`. -/
def normalizePath (s : Str) : Str :=
  if s = [] then [] else (s.map slashify).map Char.toLower

/-- `normalizePath` on a possibly missing (`undefined`/`null`) argument:
the guard `!filePath || typeof filePath !== 'string'` yields the empty
string. -/
def normalizePathOr : Option Str → Str
  | none => []
  | some s => normalizePath s

/-! ### Basic string operations mirroring the JavaScript ones -/

/-- JavaScript `String.prototype.indexOf` for a substring: index of the
first occurrence, `none` when absent (JavaScript returns `-1`). -/
def indexOfSub (needle : Str) : Str → Option Nat
  | [] => if needle.isPrefixOf ([] : Str) then some 0 else none
  | c :: t =>
    if needle.isPrefixOf (c :: t) then some 0
    else (indexOfSub needle t).map (· + 1)

/-- JavaScript `String.prototype.includes`. -/
def containsSub (needle hay : Str) : Bool :=
  (indexOfSub needle hay).isSome

/-- `indexOf` followed by `substring(index + needle.length)`: the text
after the first occurrence of `needle`. -/
def afterNeedle (needle hay : Str) : Option Str :=
  match indexOfSub needle hay with
  | some i => some (hay.drop (i + needle.length))
  | none => none

/-- Strip one occurrence of `suf` from the end, if present. -/
def stripSuffix1 (suf s : Str) : Str :=
  if suf.isSuffixOf s then s.take (s.length - suf.length) else s

/-- JavaScript falsiness of the `routePath` variable in
`extractRoutePath`: `null` or the empty string. -/
def jsFalsy : Option Str → Bool
  | none => true
  | some s => s.isEmpty

/-! ### The anchored `replace` calls of `extractRoutePath`

Each regex used by `extractRoutePath` is `$`-anchored, so a (leftmost)
match is a suffix; the replacement removes it.  The alternation and the
optional leading slash are realised by trying the candidate suffixes in
the order the leftmost-match rule selects them (a start one character
further left wins). -/

/-- `replace(/\/?page\.(tsx|ts|jsx|js)$/, '')` (line 306): remove a
trailing `page.<ext>` component, preferring the variant that also
consumes the slash in front of it. -/
def stripPageSuffix (s : Str) : Str :=
  match ["/page.tsx".data, "/page.ts".data, "/page.jsx".data,
         "/page.js".data].find? (fun suf => suf.isSuffixOf s) with
  | some suf => s.take (s.length - suf.length)
  | none =>
    match ["page.tsx".data, "page.ts".data, "page.jsx".data,
           "page.js".data].find? (fun suf => suf.isSuffixOf s) with
    | some suf => s.take (s.length - suf.length)
    | none => s

/-- `replace(/\.(tsx|ts|jsx|js)$/, '')` (line 313): remove one trailing
source extension. -/
def stripExt (s : Str) : Str :=
  match [".tsx".data, ".ts".data, ".jsx".data,
         ".js".data].find? (fun suf => suf.isSuffixOf s) with
  | some suf => s.take (s.length - suf.length)
  | none => s

/-- `replace(/^\//, '')` (line 308): remove one leading slash. -/
def dropLeadSlash : Str → Str
  | '/' :: rest => rest
  | s => s

/-- Consume the body of a route-group segment: one or more characters
other than a closing parenthesis, then the closing parenthesis; returns
the rest of the string.  Helper for `stripGroups`. -/
def takeBodyGo : Str → Option Str
  | [] => none
  | ')' :: rest => some rest
  | _ :: rest => takeBodyGo rest

/-- The `[^)]+\)` part of the route-group regex, applied after the
opening parenthesis. -/
def takeBody : Str → Option Str
  | [] => none
  | ')' :: _ => none
  | _ :: rest => takeBodyGo rest

/-- Fuelled worker for `stripGroups`; the fuel only serves termination
and `length + 1` is always sufficient since every step consumes at least
one character of the input. -/
def stripGroupsF : Nat → Str → Str
  | 0, s => s
  | _, [] => []
  | fuel + 1, '/' :: '(' :: rest =>
    (match takeBody rest with
     | some rest2 => stripGroupsF fuel rest2
     | none => '/' :: stripGroupsF fuel ('(' :: rest))
  | fuel + 1, '(' :: rest =>
    (match takeBody rest with
     | some rest2 => stripGroupsF fuel rest2
     | none => '(' :: stripGroupsF fuel rest)
  | fuel + 1, c :: rest => c :: stripGroupsF fuel rest

/-- `replace(/\/?\([^)]+\)/g, '')` (line 310): global removal of route
group segments such as `(auth)`, each optionally together with the slash
in front of it, scanning left to right as the JavaScript global replace
does. -/
def stripGroups (s : Str) : Str :=
  stripGroupsF (s.length + 1) s

/-- Fuelled worker for `collapseSlashes`; `length + 1` fuel is always
sufficient since every step consumes at least one character. -/
def collapseSlashesF : Nat → Str → Str
  | 0, s => s
  | _, [] => []
  | fuel + 1, '/' :: '/' :: rest => collapseSlashesF fuel ('/' :: rest)
  | fuel + 1, c :: rest => c :: collapseSlashesF fuel rest

/-- `replace(/\/+/g, '/')` (line 317): collapse runs of slashes. -/
def collapseSlashes (s : Str) : Str :=
  collapseSlashesF (s.length + 1) s

/-- `replace(/^\/|\/$/g, '')` (line 317): remove one leading and one
trailing slash. -/
def trimEdgeSlashes (s : Str) : Str :=
  let s1 := dropLeadSlash s
  match s1.getLast? with
  | some '/' => s1.take (s1.length - 1)
  | _ => s1

/-! ### RouteExtractor -/

/-- The App Router directory needle `"/" + appDir + "/"`. -/
def appNeedle (o : FilterOptions) : Str :=
  '/' :: o.appDir ++ ['/']

/-- The Pages Router directory needle `"/" + pagesDir + "/"`. -/
def pagesNeedle (o : FilterOptions) : Str :=
  '/' :: o.pagesDir ++ ['/']

/-- The internal Next.js prefix `'private-next-pages/'` (line 290). -/
def privateNeedle : Str := "private-next-pages/".data

/-- The sentinel returned for the root route (line 321). -/
def indexRoute : Str := "index".data

/-- Lines 277-299 of `extractRoutePath`: locate the routing directory
segment and take the remainder after it.  The App Router needle is tried
first (when enabled); the Pages Router lookup runs when the variable
`routePath` is still falsy (`null` or the empty remainder), trying the
`private-next-pages/` prefix before the `pagesDir` needle. -/
def routeDirRemainder (o : FilterOptions) (nr : Str) : Option Str :=
  let rp0 : Option Str :=
    if o.supportAppRouter then afterNeedle (appNeedle o) nr else none
  if jsFalsy rp0 && o.supportPagesRouter then
    match afterNeedle privateNeedle nr with
    | some r => some r
    | none =>
      match afterNeedle (pagesNeedle o) nr with
      | some r => some r
      | none => rp0
  else rp0

/-- Lines 303-317 of `extractRoutePath`: clean the remainder.  On the
App Router branch (taken when the App Router is enabled and the request
contains the app needle) the `page.<ext>` suffix, a leading slash and
all route-group segments are removed; on the Pages Router branch only
the extension is removed.  Both end by collapsing repeated slashes and
trimming edge slashes. -/
def cleanRoutePath (o : FilterOptions) (nr rp : Str) : Str :=
  let rp2 : Str :=
    if o.supportAppRouter && containsSub (appNeedle o) nr then
      stripGroups (dropLeadSlash (stripPageSuffix rp))
    else stripExt rp
  trimEdgeSlashes (collapseSlashes rp2)

/-- `extractRoutePath` (lib/next-build-filter-plugin.js, lines 276-325)
on an already normalized request: locate the routing directory, clean
the remainder, map the empty result to `"index"`; `none` models the
`null` returned when no routing directory segment is found (the
JavaScript also returns `null` when the remainder is empty, via the
falsiness of `''`). -/
def extractRoutePath (o : FilterOptions) (nr : Str) : Option Str :=
  let rp := routeDirRemainder o nr
  if jsFalsy rp then none
  else
    let c := cleanRoutePath o nr (rp.getD [])
    if c = [] then some indexRoute else some c

/-! ### RouteClassifier -/

/-- The qualifying source-file extensions (line 175). -/
def pageExtensions : List Str :=
  [".js".data, ".jsx".data, ".ts".data, ".tsx".data]

/-- The App Router sibling files that are never routes (lines 197-201). -/
def appRouterSpecialFiles : List Str :=
  ["layout.tsx".data, "layout.ts".data, "layout.jsx".data, "layout.js".data,
   "loading.tsx".data, "loading.ts".data, "loading.jsx".data, "loading.js".data,
   "error.tsx".data, "error.ts".data, "error.jsx".data, "error.js".data,
   "not-found.tsx".data, "not-found.ts".data, "not-found.jsx".data, "not-found.js".data,
   "template.tsx".data, "template.ts".data, "template.jsx".data, "template.js".data]

/-- The page base-name endings accepted on the App Router branch
(lines 209-210). -/
def pageBaseFiles : List Str :=
  ["page.tsx".data, "page.ts".data, "page.jsx".data, "page.js".data]

/-- The `isInPages` test of `isPageFile` (lines 182-186): Pages Router
enabled and the request (or its context) addressed through the pages
directory or the internal `private-next-pages/` prefix. -/
def isInPages (o : FilterOptions) (request : Str) (context : Option Str) : Bool :=
  o.supportPagesRouter &&
    (containsSub (pagesNeedle o) request ||
     containsSub privateNeedle request ||
     (match context with
      | some c => containsSub (pagesNeedle o) c
      | none => false))

/-- The `isInApp` test of `isPageFile` (lines 189-192). -/
def isInApp (o : FilterOptions) (request : Str) (context : Option Str) : Bool :=
  o.supportAppRouter &&
    (containsSub (appNeedle o) request ||
     (match context with
      | some c => containsSub (appNeedle o) c
      | none => false))

/-- `isPageFile` (lib/next-build-filter-plugin.js, lines 171-215):
requires a qualifying extension; on the App Router branch only the
`page.<ext>` base names count (sibling special files are rejected);
otherwise the Pages Router test decides. -/
def isPageFile (o : FilterOptions) (request : Str) (context : Option Str) : Bool :=
  if request = [] then false
  else if !(pageExtensions.any fun e => e.isSuffixOf request) then false
  else if isInApp o request context then
    if appRouterSpecialFiles.any (fun f => f.isSuffixOf request) then false
    else pageBaseFiles.any (fun f => f.isSuffixOf request)
  else isInPages o request context

/-! ### MatchEngine, part 1: the glob matcher (model of `minimatch`)

Within a path segment a glob pattern is a sequence of tokens: literal
characters (possibly backslash-escaped), `?`, `*` and bracket character
classes.  Across segments, a pattern segment that is exactly `**`
matches one or more whole segments when followed by more pattern, and
everything remaining when it is the final segment; as in `minimatch`,
a trailing `a/**` does not match the bare `a`. -/

/-- Tokens of a glob pattern segment. -/
inductive GlobTok where
  | lit (c : Char)
  | anyCh
  | star
  | cls (neg : Bool) (ranges : List (Char × Char))
deriving Repr, DecidableEq

/-- Parse the items of a glob character class after the opening bracket
(and after an optional negation marker): plain characters, `a-b` ranges,
a trailing literal dash; stops at the closing bracket, `none` when the
class is unterminated. -/
def parseClsItems : Str → Option (List (Char × Char) × Str)
  | [] => none
  | ']' :: rest => some ([], rest)
  | a :: '-' :: ']' :: rest => some ([(a, a), ('-', '-')], rest)
  | a :: '-' :: b :: rest =>
    (parseClsItems rest).map fun pr => ((a, b) :: pr.1, pr.2)
  | a :: rest =>
    (parseClsItems rest).map fun pr => ((a, a) :: pr.1, pr.2)

/-- Parse a glob character class body (after the opening bracket): an
optional `!`/`^` negation, then items, where a closing bracket placed
first is a literal member. -/
def parseCls (s : Str) : Option (Bool × List (Char × Char) × Str) :=
  let (neg, s1) : Bool × Str :=
    match s with
    | '!' :: r => (true, r)
    | '^' :: r => (true, r)
    | _ => (false, s)
  match s1 with
  | ']' :: r2 => (parseClsItems r2).map fun pr => (neg, (']', ']') :: pr.1, pr.2)
  | _ => (parseClsItems s1).map fun pr => (neg, pr.1, pr.2)

/-- Membership of a character in a list of closed ranges. -/
def inCls (ranges : List (Char × Char)) (d : Char) : Bool :=
  ranges.any fun pr => pr.1 ≤ d && d ≤ pr.2

/-- Fuelled tokenizer for one glob pattern segment; `length + 1` fuel is
always sufficient since every token consumes input.  An unterminated
class makes the opening bracket a literal, as in `minimatch`. -/
def lexSegF : Nat → Str → List GlobTok
  | 0, _ => []
  | _, [] => []
  | fuel + 1, '\\' :: c :: rest => .lit c :: lexSegF fuel rest
  | _ + 1, ['\\'] => [.lit '\\']
  | fuel + 1, '*' :: rest => .star :: lexSegF fuel rest
  | fuel + 1, '?' :: rest => .anyCh :: lexSegF fuel rest
  | fuel + 1, '[' :: rest =>
    (match parseCls rest with
     | some (neg, ranges, rest2) => .cls neg ranges :: lexSegF fuel rest2
     | none => .lit '[' :: lexSegF fuel rest)
  | fuel + 1, c :: rest => .lit c :: lexSegF fuel rest

/-- Tokenize one glob pattern segment. -/
def lexSeg (s : Str) : List GlobTok :=
  lexSegF (s.length + 1) s

/-- Fuelled worker for `matchToks`: every step consumes a token or a
text character, so `tokens + text + 1` fuel is always sufficient. -/
def matchToksF : Nat → List GlobTok → Str → Bool
  | 0, _, _ => false
  | _ + 1, [], [] => true
  | _ + 1, [], _ :: _ => false
  | _ + 1, .lit _ :: _, [] => false
  | fuel + 1, .lit c :: p, d :: t => c == d && matchToksF fuel p t
  | _ + 1, .anyCh :: _, [] => false
  | fuel + 1, .anyCh :: p, _ :: t => matchToksF fuel p t
  | _ + 1, .cls _ _ :: _, [] => false
  | fuel + 1, .cls neg rs :: p, d :: t => (inCls rs d != neg) && matchToksF fuel p t
  | fuel + 1, .star :: p, t =>
    matchToksF fuel p t ||
      (match t with
       | [] => false
       | _ :: t2 => matchToksF fuel (.star :: p) t2)

/-- Match a token list against the characters of one path segment. -/
def matchToks (p : List GlobTok) (t : Str) : Bool :=
  matchToksF (p.length + t.length + 1) p t

/-- JavaScript `String.prototype.split('/')`. -/
def splitSlash : Str → List Str
  | [] => [[]]
  | '/' :: rest => [] :: splitSlash rest
  | c :: rest =>
    match splitSlash rest with
    | [] => [[c]]
    | s :: ss => (c :: s) :: ss

/-- Fuelled worker for `matchGlobSegs`: every step consumes a pattern
segment or a path segment. -/
def matchGlobSegsF : Nat → List Str → List Str → Bool
  | 0, _, _ => false
  | _ + 1, [], [] => true
  | _ + 1, [], _ :: _ => false
  | _ + 1, _ :: _, [] => false
  | fuel + 1, p :: ps, t :: ts =>
    if p = ['*', '*'] then
      ps = [] || matchGlobSegsF fuel ps (t :: ts) || matchGlobSegsF fuel (p :: ps) ts
    else
      matchToks (lexSeg p) t && matchGlobSegsF fuel ps ts

/-- Match glob pattern segments against path segments; a pattern segment
that is exactly `**` matches any number of further segments (at least
one remaining path segment must exist, as in `minimatch`). -/
def matchGlobSegs (ps ts : List Str) : Bool :=
  matchGlobSegsF (ps.length + ts.length + 1) ps ts

/-- Model of `minimatch(path, pattern)` restricted to the features the
engine exercises (segments, `*`, `**`, `?`, classes, escapes). -/
def minimatch (path pattern : Str) : Bool :=
  matchGlobSegs (splitSlash pattern) (splitSlash path)

/-! ### MatchEngine, part 2: the regex patterns (model of `RegExp`)

`shouldExcludePage` evaluates each entry of `excludePatterns` with
`new RegExp(pattern)` followed by `regex.test(routePath)` inside a
`try/catch`; a throwing constructor is treated as a non-match.  The
model covers the subset `^ $ . | ( ) [ ] * + ?` with the usual escapes;
a pattern that is syntactically invalid (for example an unterminated
group or class, a dangling quantifier, or a construct outside the
modelled subset) parses to `none`. -/

/-- Abstract syntax of the modelled regular expressions.  `+` and `?`
are desugared by the parser (`a+` to `a` then `a*`, `a?` to `a | ε`). -/
inductive Reg where
  | eps
  | char (c : Char)
  | anyCh
  | cls (neg : Bool) (ranges : List (Char × Char))
  | seq (a b : Reg)
  | alt (a b : Reg)
  | star (a : Reg)
  | bol
  | eol
deriving Repr, DecidableEq

/-- The ranges denoted by the class escapes `\d`, `\w`, `\s`. -/
def escCls : Char → Option (List (Char × Char))
  | 'd' => some [('0', '9')]
  | 'w' => some [('a', 'z'), ('A', 'Z'), ('0', '9'), ('_', '_')]
  | 's' => some [(' ', ' '), ('\t', '\t'), ('\n', '\n'), ('\r', '\r')]
  | _ => none

/-- An escaped literal character: control escapes, or an identity escape
of a non-alphanumeric character; alphanumeric escapes outside the
modelled subset are rejected. -/
def escLit (c : Char) : Option Char :=
  if c = 'n' then some '\n'
  else if c = 't' then some '\t'
  else if c = 'r' then some '\r'
  else if c.isAlphanum then none
  else some c

/-- Parse the items of a regex character class: stops at the first
closing bracket (so an immediately closed class is empty, as in
JavaScript), `none` when unterminated. -/
def parseRegClsItems : Str → Option (List (Char × Char) × Str)
  | [] => none
  | ']' :: rest => some ([], rest)
  | '\\' :: [] => none
  | '\\' :: c :: rest =>
    (match escCls c with
     | some rs => (parseRegClsItems rest).map fun pr => (rs ++ pr.1, pr.2)
     | none =>
       match escLit c with
       | some d => (parseRegClsItems rest).map fun pr => ((d, d) :: pr.1, pr.2)
       | none => none)
  | a :: '-' :: ']' :: rest => some ([(a, a), ('-', '-')], rest)
  | _ :: '-' :: '\\' :: _ => none
  | a :: '-' :: b :: rest =>
    (parseRegClsItems rest).map fun pr => ((a, b) :: pr.1, pr.2)
  | a :: rest =>
    (parseRegClsItems rest).map fun pr => ((a, a) :: pr.1, pr.2)

/-- Parse a regex character class body (after the opening bracket):
optional `^` negation, then items. -/
def parseRegCls (s : Str) : Option (Bool × List (Char × Char) × Str) :=
  match s with
  | '^' :: rest => (parseRegClsItems rest).map fun pr => (true, pr.1, pr.2)
  | _ => (parseRegClsItems s).map fun pr => (false, pr.1, pr.2)

/-- Reject a further quantifier directly after a quantified atom
(JavaScript: nothing to repeat). -/
def noMoreQuant (a : Reg) (rest : Str) : Option (Reg × Str) :=
  match rest with
  | '*' :: _ => none
  | '+' :: _ => none
  | '?' :: _ => none
  | _ => some (a, rest)

/-- Apply an optional quantifier (with optional lazy marker, which does
not change acceptance) to a parsed atom. -/
def applyQuant (a : Reg) : Str → Option (Reg × Str)
  | '*' :: '?' :: rest => noMoreQuant (.star a) rest
  | '*' :: rest => noMoreQuant (.star a) rest
  | '+' :: '?' :: rest => noMoreQuant (.seq a (.star a)) rest
  | '+' :: rest => noMoreQuant (.seq a (.star a)) rest
  | '?' :: '?' :: rest => noMoreQuant (.alt a .eps) rest
  | '?' :: rest => noMoreQuant (.alt a .eps) rest
  | rest => some (a, rest)

mutual

/-- Parse an alternation `seq ('|' seq)*`. -/
def parseAlt : Nat → Str → Option (Reg × Str)
  | 0, _ => none
  | fuel + 1, s =>
    match parseSeq fuel s with
    | none => none
    | some (a, rest) =>
      match rest with
      | '|' :: rest2 => (parseAlt fuel rest2).map fun pr => (.alt a pr.1, pr.2)
      | _ => some (a, rest)

/-- Parse a sequence of quantified atoms, stopping at `|`, `)` or the
end of the input. -/
def parseSeq : Nat → Str → Option (Reg × Str)
  | 0, _ => none
  | fuel + 1, s =>
    match s with
    | [] => some (.eps, [])
    | ')' :: _ => some (.eps, s)
    | '|' :: _ => some (.eps, s)
    | _ =>
      match parseAtomQ fuel s with
      | none => none
      | some (a, rest) => (parseSeq fuel rest).map fun pr => (.seq a pr.1, pr.2)

/-- Parse one atom followed by its quantifiers. -/
def parseAtomQ : Nat → Str → Option (Reg × Str)
  | 0, _ => none
  | fuel + 1, s =>
    match parseAtom fuel s with
    | none => none
    | some (a, rest) => applyQuant a rest

/-- Parse one atom: a group, a class, an anchor, a dot, an escape or a
literal character.  An unterminated group or class, a dangling
quantifier, a lone trailing backslash, and the unsupported `(?`
constructs are rejected. -/
def parseAtom : Nat → Str → Option (Reg × Str)
  | 0, _ => none
  | fuel + 1, s =>
    match s with
    | [] => none
    | '(' :: '?' :: _ => none
    | '(' :: rest =>
      (match parseAlt fuel rest with
       | none => none
       | some (a, rest2) =>
         match rest2 with
         | ')' :: rest3 => some (a, rest3)
         | _ => none)
    | ')' :: _ => none
    | '[' :: rest =>
      (match parseRegCls rest with
       | some (neg, ranges, rest2) => some (.cls neg ranges, rest2)
       | none => none)
    | '^' :: rest => some (.bol, rest)
    | '$' :: rest => some (.eol, rest)
    | '.' :: rest => some (.anyCh, rest)
    | '\\' :: [] => none
    | '\\' :: c :: rest =>
      (match escCls c with
       | some rs => some (.cls false rs, rest)
       | none =>
         match c with
         | 'D' => some (.cls true [('0', '9')], rest)
         | 'W' => some (.cls true [('a', 'z'), ('A', 'Z'), ('0', '9'), ('_', '_')], rest)
         | 'S' => some (.cls true [(' ', ' '), ('\t', '\t'), ('\n', '\n'), ('\r', '\r')], rest)
         | _ =>
           match escLit c with
           | some d => some (.char d, rest)
           | none => none)
    | '*' :: _ => none
    | '+' :: _ => none
    | '?' :: _ => none
    | c :: rest => some (.char c, rest)

end

/-- Model of `new RegExp(pattern)`: `some` of the syntax tree for a
pattern inside the modelled subset, `none` for a pattern the constructor
rejects (or one outside the subset). -/
def regexParse (s : Str) : Option Reg :=
  match parseAlt (2 * s.length + 8) s with
  | some (re, []) => some re
  | _ => none

/-- Size of a regex tree, used to provision matcher fuel. -/
def regSize : Reg → Nat
  | .eps => 1
  | .char _ => 1
  | .anyCh => 1
  | .cls _ _ => 1
  | .seq a b => regSize a + regSize b + 1
  | .alt a b => regSize a + regSize b + 1
  | .star a => regSize a + 1
  | .bol => 1
  | .eol => 1

/-- Fuelled continuation-passing matcher.  `total` is the length of the
full subject, used by the `^` anchor; the star rule demands progress, so
for a well-provisioned fuel the result is the usual backtracking one. -/
def rmatch (total : Nat) : Nat → Reg → Str → (Str → Bool) → Bool
  | 0, _, _, _ => false
  | fuel + 1, re, s, k =>
    match re with
    | .eps => k s
    | .bol => decide (s.length = total) && k s
    | .eol => s.isEmpty && k s
    | .anyCh =>
      (match s with
       | d :: t => d != '\n' && k t
       | [] => false)
    | .char c =>
      (match s with
       | d :: t => c == d && k t
       | [] => false)
    | .cls neg rs =>
      (match s with
       | d :: t => (inCls rs d != neg) && k t
       | [] => false)
    | .seq a b => rmatch total fuel a s fun t => rmatch total fuel b t k
    | .alt a b => rmatch total fuel a s k || rmatch total fuel b s k
    | .star a =>
      k s ||
        rmatch total fuel a s fun t =>
          if t.length < s.length then rmatch total fuel (.star a) t k else false

/-- Try a match at every start position (the unanchored search of
`RegExp.prototype.test`). -/
def searchAux (re : Reg) (total : Nat) : Str → Bool
  | [] => rmatch total ((regSize re + 2) * (total + 2)) re [] fun _ => true
  | c :: t =>
    rmatch total ((regSize re + 2) * (total + 2)) re (c :: t) (fun _ => true) ||
      searchAux re total t

/-- Model of `regex.test(routePath)`. -/
def regexSearch (re : Reg) (s : Str) : Bool :=
  searchAux re s.length s

/-- One entry of the `excludePatterns` check (lines 258-265): compile
the pattern and test it, a pattern the constructor throws on is treated
as never matching (the `catch` branch returns `false`). -/
def regexTestSafe (pattern routePath : Str) : Bool :=
  match regexParse pattern with
  | none => false
  | some re => regexSearch re routePath

/-! ### FilterDecisionService -/

/-- The per-pattern test shared by the `includedPages` and
`excludedPages` checks of `shouldExcludePage` (lines 230-238 and
244-252): normalize the pattern, try a glob match, then fall back to
exact equality or to a prefix match with a trailing slash appended. -/
def pageMatch (routePath page : Str) : Bool :=
  let normalizedPage := normalizePath page
  minimatch routePath normalizedPage ||
    routePath == normalizedPage ||
    (normalizedPage ++ ['/']).isPrefixOf routePath

/-- `shouldExcludePage` (lib/next-build-filter-plugin.js, lines
221-271): normalize the request, extract the route path (`null` yields
`false`); a non-empty `includedPages` switches to allow-list mode and
returns the negated inclusion test; otherwise a match in
`excludedPages`, and then in `excludePatterns`, yields `true`. -/
def shouldExcludePage (o : FilterOptions) (request : Str) : Bool :=
  match extractRoutePath o (normalizePath request) with
  | none => false
  | some routePath =>
    if o.includedPages.length > 0 then
      !(o.includedPages.any fun page => pageMatch routePath page)
    else if o.excludedPages.length > 0 &&
        o.excludedPages.any (fun page => pageMatch routePath page) then
      true
    else if o.excludePatterns.length > 0 &&
        o.excludePatterns.any (fun pat => regexTestSafe pat routePath) then
      true
    else
      false

/-- The decision taken per discovered file by the `beforeResolve` hook
(lib/next-build-filter-plugin.js, lines 73-105): the request is replaced
by the empty module exactly when `isPageFile` accepts it and
`shouldExcludePage` returns `true`.  This is the `decide` entry point of
the specification. -/
def decideRequest (o : FilterOptions) (request : Str) (context : Option Str) : Bool :=
  isPageFile o request context && shouldExcludePage o request

/-! ## Helper lemmas -/

/-- `Char.ofNat` on a scalar value below the surrogate range keeps its
code point. -/
theorem char_toNat_ofNat_valid (n : Nat) (h : n < 55296) : (Char.ofNat n).toNat = n := by
  have hv : Nat.isValidChar n := Or.inl h
  rw [Char.ofNat, dif_pos hv]
  simp [Char.ofNatAux, Char.toNat, UInt32.toNat]

/-- ASCII lowercasing is idempotent. -/
theorem toLower_toLower (c : Char) : Char.toLower (Char.toLower c) = Char.toLower c := by
  simp only [Char.toLower]
  by_cases h : c.toNat ≥ 65 ∧ c.toNat ≤ 90
  · rw [if_pos h, char_toNat_ofNat_valid (c.toNat + 32) (by omega)]
    rw [if_neg (by omega)]
  · rw [if_neg h, if_neg h]

/-- A backslash can only arise from lowercasing a backslash. -/
theorem toLower_eq_backslash {c : Char} (h : Char.toLower c = '\\') : c = '\\' := by
  by_cases hc : c.toNat ≥ 65 ∧ c.toNat ≤ 90
  · exfalso
    have h2 : (Char.toLower c).toNat = 92 := by rw [h]; decide
    rw [Char.toLower] at h2
    rw [if_pos hc, char_toNat_ofNat_valid (c.toNat + 32) (by omega)] at h2
    omega
  · rw [Char.toLower] at h
    rw [if_neg hc] at h
    exact h

/-- The backslash replacement leaves no backslash behind. -/
theorem slashify_ne_backslash (c : Char) : slashify c ≠ '\\' := by
  unfold slashify
  split
  · decide
  · assumption

/-- The per-character normalization step is idempotent. -/
theorem normChar_idem (c : Char) :
    Char.toLower (slashify (Char.toLower (slashify c))) = Char.toLower (slashify c) := by
  have h1 : slashify (Char.toLower (slashify c)) = Char.toLower (slashify c) := by
    unfold slashify
    rw [if_neg]
    intro h
    exact slashify_ne_backslash c (toLower_eq_backslash h)
  rw [h1, toLower_toLower]

/-- `normalizePath` acts as the per-character map on every input
(including the guarded empty string). -/
theorem normalizePath_eq_map (s : Str) :
    normalizePath s = s.map fun c => Char.toLower (slashify c) := by
  unfold normalizePath
  split
  · simp_all
  · rw [List.map_map]
    rfl

/-- Extraction failure forces `shouldExcludePage` to `false`. -/
theorem shouldExcludePage_of_extract_none {o : FilterOptions} {req : Str}
    (h : extractRoutePath o (normalizePath req) = none) :
    shouldExcludePage o req = false := by
  unfold shouldExcludePage
  rw [h]

/-- On successful extraction, `shouldExcludePage` is the pattern cascade
on the extracted route. -/
theorem shouldExcludePage_of_extract_some {o : FilterOptions} {req r : Str}
    (h : extractRoutePath o (normalizePath req) = some r) :
    shouldExcludePage o req =
      (if o.includedPages.length > 0 then
        !(o.includedPages.any fun page => pageMatch r page)
      else if o.excludedPages.length > 0 &&
          o.excludedPages.any (fun page => pageMatch r page) then true
      else if o.excludePatterns.length > 0 &&
          o.excludePatterns.any (fun pat => regexTestSafe pat r) then true
      else false) := by
  unfold shouldExcludePage
  rw [h]

/-- A `false` result of `containsSub` turns the `indexOf` model into
`none`. -/
theorem indexOfSub_none_of_not_contains {needle hay : Str}
    (h : containsSub needle hay = false) :
    indexOfSub needle hay = none := by
  unfold containsSub at h
  cases hx : indexOfSub needle hay with
  | none => rfl
  | some i => rw [hx] at h; simp at h

/-- The safe regex test succeeds exactly when the pattern compiles and
the compiled regex finds a match. -/
theorem regexTestSafe_eq_true_iff (p r : Str) :
    regexTestSafe p r = true ↔
      ∃ re, regexParse p = some re ∧ regexSearch re r = true := by
  unfold regexTestSafe
  cases h : regexParse p with
  | none => simp
  | some re => simp

/-! ## Claims -/

/-- C9: `normalizePath` is idempotent and total — for every string,
normalizing twice equals normalizing once, the result is the
per-character map that replaces each backslash by a slash and lowercases
(so no backslash and no uppercase ASCII letter survives), and empty or
undefined input yields the empty string without failure. -/
theorem c9_normalize_idempotent_total :
    (∀ s : Str, normalizePath (normalizePath s) = normalizePath s)
    ∧ (∀ s : Str, normalizePath s = s.map fun c => Char.toLower (slashify c))
    ∧ (∀ s : Str, ∀ c ∈ normalizePath s, c ≠ '\\' ∧ Char.toLower c = c)
    ∧ normalizePath [] = []
    ∧ normalizePathOr none = [] := by
  refine ⟨?_, normalizePath_eq_map, ?_, rfl, rfl⟩
  · intro s
    rw [normalizePath_eq_map s, normalizePath_eq_map, List.map_map]
    apply List.map_congr_left
    intro a _
    exact normChar_idem a
  · intro s c hc
    rw [normalizePath_eq_map s] at hc
    obtain ⟨a, _, rfl⟩ := List.mem_map.mp hc
    constructor
    · intro h
      exact slashify_ne_backslash a (toLower_eq_backslash h)
    · exact toLower_toLower (slashify a)

/-- Witness for C9 at the concrete input `"A\B"`, whose normalization is
`"a/b"`: its member `'a'` is not a backslash and is lowercase-stable. -/
theorem c9_normalize_idempotent_total_witness :
    'a' ≠ '\\' ∧ Char.toLower 'a' = 'a' :=
  c9_normalize_idempotent_total.2.2.1 "A\\B".data 'a' (by decide)

/-- C3: fail-open on non-routes — for every raw request that the
classifier rejects, or whose route extraction yields `none`, the
decision is `excluded = false` whatever the configured patterns; in
particular the nested-file path `app/layout.tsx` is never excluded
under any pattern configuration (with the default directory names its
extraction already fails, since the path has no leading slash, and with
a context addressed through the routing directories the classifier may
even accept it, so the extraction case carries the proof). -/
theorem c3_fail_open :
    (∀ (o : FilterOptions) (req : Str) (ctx : Option Str),
      isPageFile o req ctx = false ∨ extractRoutePath o (normalizePath req) = none →
      decideRequest o req ctx = false)
    ∧ (∀ (inc exc pats : List Str) (ctx : Option Str),
        decideRequest
          { defaultOptions with
              includedPages := inc, excludedPages := exc, excludePatterns := pats }
          "app/layout.tsx".data ctx = false) := by
  constructor
  · intro o req ctx h
    unfold decideRequest
    rcases h with h | h
    · rw [h, Bool.false_and]
    · rw [shouldExcludePage_of_extract_none h, Bool.and_false]
  · intro inc exc pats ctx
    unfold decideRequest
    have hx : extractRoutePath
        { defaultOptions with
            includedPages := inc, excludedPages := exc, excludePatterns := pats }
        (normalizePath "app/layout.tsx".data) = none := rfl
    rw [shouldExcludePage_of_extract_none hx, Bool.and_false]

/-- Witness for C3 at the concrete non-route input `styles.css` (no
qualifying extension, so the classifier rejects it). -/
theorem c3_fail_open_witness :
    decideRequest defaultOptions "project/pages/styles.css".data none = false :=
  c3_fail_open.1 defaultOptions "project/pages/styles.css".data none (Or.inl (by decide))

/-- C8: route identifiers are never empty — whenever extraction
succeeds it returns a non-empty string, and when suffix stripping
leaves nothing the sentinel `"index"` is returned, as on the root page
file `/app/page.tsx`. -/
theorem c8_route_nonempty :
    (∀ (o : FilterOptions) (nr r : Str), extractRoutePath o nr = some r → r ≠ [])
    ∧ extractRoutePath defaultOptions (normalizePath "/app/page.tsx".data) = some indexRoute := by
  constructor
  · intro o nr r h
    simp only [extractRoutePath] at h
    split at h
    · simp at h
    · split at h
      · rw [Option.some.injEq] at h
        subst h
        decide
      · rw [Option.some.injEq] at h
        subst h
        assumption
  · decide

/-- Witness for C8 at the concrete input `/pages/about.js`, whose
extracted route `about` is non-empty. -/
theorem c8_route_nonempty_witness : "about".data ≠ ([] : Str) :=
  c8_route_nonempty.1 defaultOptions (normalizePath "/pages/about.js".data)
    "about".data (by decide)

/-- C1, counterexample to the claim as stated: the glob pattern
`a\*` (an escaped star, matching the literal route `a*`) fully
glob-matches the route identifier `a*` extracted from the classified
path `/pages/a*.js`, yet with `excludedPages = ["a\*"]` and empty
`includedPages` the decision is not-excluded, because the engine glob
matches against the normalized pattern `a/*` (normalization turns the
escaping backslash into a slash) and the equality and prefix fallbacks
also fail. -/
theorem c1_counterexample :
    minimatch "a*".data "a\\*".data = true
    ∧ isPageFile { defaultOptions with excludedPages := ["a\\*".data] }
        "/pages/a*.js".data none = true
    ∧ extractRoutePath { defaultOptions with excludedPages := ["a\\*".data] }
        (normalizePath "/pages/a*.js".data) = some "a*".data
    ∧ ({ defaultOptions with excludedPages := ["a\\*".data] } : FilterOptions).includedPages = []
    ∧ decideRequest { defaultOptions with excludedPages := ["a\\*".data] }
        "/pages/a*.js".data none = false := by
  decide

/-- C1 (amended): for every route identifier `r` and glob pattern `p`,
if a full glob match of `r` against the normalized pattern
`normalizePath p` succeeds, then the decision on a route-classified
path extracting to `r`, under a configuration with
`excludedPages = [p]` and empty `includedPages`, is `excluded = true`. -/
theorem c1_glob_match_excludes :
    ∀ (o : FilterOptions) (req p r : Str) (ctx : Option Str),
      o.includedPages = [] →
      o.excludedPages = [p] →
      isPageFile o req ctx = true →
      extractRoutePath o (normalizePath req) = some r →
      minimatch r (normalizePath p) = true →
      decideRequest o req ctx = true := by
  intro o req p r ctx hinc hexc hpf hr hm
  unfold decideRequest
  rw [hpf, Bool.true_and]
  rw [shouldExcludePage_of_extract_some hr, hinc, hexc]
  simp [pageMatch, hm]

/-- Witness for C1 at the pattern `admin/**` and the classified path
`/pages/admin/users.js`, whose route `admin/users` glob-matches it. -/
theorem c1_glob_match_excludes_witness :
    decideRequest { defaultOptions with excludedPages := ["admin/**".data] }
      "/pages/admin/users.js".data none = true :=
  c1_glob_match_excludes { defaultOptions with excludedPages := ["admin/**".data] }
    "/pages/admin/users.js".data "admin/**".data "admin/users".data none
    rfl rfl (by decide) (by decide) (by decide)

/-- C2: allow-list/deny-list mutual exclusivity — for every request,
two configurations that agree on a non-empty `includedPages` (and on
the directory and router settings) but carry arbitrary `excludedPages`
and `excludePatterns` produce the same `shouldExcludePage` verdict and
the same decision, and on successful extraction the route is excluded
exactly when it satisfies no included pattern. -/
theorem c2_allowlist_exclusive :
    ∀ (o : FilterOptions) (e ps : List Str) (req : Str) (ctx : Option Str),
      o.includedPages ≠ [] →
      (shouldExcludePage { o with excludedPages := e, excludePatterns := ps } req
          = shouldExcludePage o req
        ∧ decideRequest { o with excludedPages := e, excludePatterns := ps } req ctx
          = decideRequest o req ctx
        ∧ ∀ r, extractRoutePath o (normalizePath req) = some r →
            shouldExcludePage o req = !(o.includedPages.any fun page => pageMatch r page)) := by
  intro o e ps req ctx h
  have hlen : o.includedPages.length > 0 := List.length_pos.mpr h
  have hcong : extractRoutePath { o with excludedPages := e, excludePatterns := ps }
      (normalizePath req) = extractRoutePath o (normalizePath req) := rfl
  have hse2 : shouldExcludePage { o with excludedPages := e, excludePatterns := ps } req
      = shouldExcludePage o req := by
    cases hr : extractRoutePath o (normalizePath req) with
    | none =>
      rw [shouldExcludePage_of_extract_none (hcong.trans hr),
        shouldExcludePage_of_extract_none hr]
    | some r =>
      rw [shouldExcludePage_of_extract_some (hcong.trans hr),
        shouldExcludePage_of_extract_some hr]
      dsimp only
      rw [if_pos hlen, if_pos hlen]
  have hpf : isPageFile { o with excludedPages := e, excludePatterns := ps } req ctx
      = isPageFile o req ctx := rfl
  refine ⟨hse2, ?_, ?_⟩
  · unfold decideRequest
    rw [hse2, hpf]
  · intro r hr
    rw [shouldExcludePage_of_extract_some hr, if_pos hlen]

/-- Witness for C2: with the allow-list `["blog/**", "index"]` active,
adding `excludedPages = ["blog/**"]` and `excludePatterns = ["blog"]`
does not change the verdict on `/pages/admin.js`. -/
theorem c2_allowlist_exclusive_witness :
    shouldExcludePage
        { defaultOptions with
            includedPages := ["blog/**".data, "index".data],
            excludedPages := ["blog/**".data], excludePatterns := ["blog".data] }
        "/pages/admin.js".data
      = shouldExcludePage
        { defaultOptions with includedPages := ["blog/**".data, "index".data] }
        "/pages/admin.js".data :=
  (c2_allowlist_exclusive
    { defaultOptions with includedPages := ["blog/**".data, "index".data] }
    ["blog/**".data] ["blog".data] "/pages/admin.js".data none (by decide)).1

/-- C4: malformed regex tolerance — a pattern the regex constructor
rejects is treated as matching no route identifier; under a deny-list
configuration whose `excludedPages` do not match, a route is excluded
by `excludePatterns` exactly when some pattern in the set compiles and
its compiled regex matches the route; and on the concrete malformed
configuration of Scenario D the (total, hence never-throwing) decision
is not-excluded. -/
theorem c4_malformed_regex_tolerance :
    (∀ (p r : Str), regexParse p = none → regexTestSafe p r = false)
    ∧ (∀ (o : FilterOptions) (req r : Str),
        extractRoutePath o (normalizePath req) = some r →
        o.includedPages = [] →
        o.excludedPages.any (fun page => pageMatch r page) = false →
        (shouldExcludePage o req = true ↔
          ∃ p ∈ o.excludePatterns, ∃ re, regexParse p = some re ∧ regexSearch re r = true))
    ∧ decideRequest { defaultOptions with excludePatterns := ["(unterminated".data] }
        "/pages/blog.js".data none = false := by
  refine ⟨?_, ?_, by decide⟩
  · intro p r h
    unfold regexTestSafe
    rw [h]
  · intro o req r hr hinc hany
    rw [shouldExcludePage_of_extract_some hr, hinc, hany]
    simp only [List.length_nil, gt_iff_lt, Nat.lt_irrefl, if_false, Bool.and_false,
      Bool.false_eq_true, if_neg]
    constructor
    · intro hx
      split at hx
      · rename_i hcond
        rw [Bool.and_eq_true] at hcond
        obtain ⟨hlen, hex⟩ := hcond
        obtain ⟨p, hp, ht⟩ := List.any_eq_true.mp hex
        exact ⟨p, hp, (regexTestSafe_eq_true_iff p r).mp ht⟩
      · simp at hx
    · rintro ⟨p, hp, re, hre, hsr⟩
      have hts : regexTestSafe p r = true := (regexTestSafe_eq_true_iff p r).mpr ⟨re, hre, hsr⟩
      have hex : o.excludePatterns.any (fun pat => regexTestSafe pat r) = true :=
        List.any_eq_true.mpr ⟨p, hp, hts⟩
      have hlen : o.excludePatterns.length > 0 := by
        cases hl : o.excludePatterns with
        | nil => rw [hl] at hp; simp at hp
        | cons a t => simp [hl]
      simp [hex, hlen]

/-- Witness for C4 at the malformed pattern `(unterminated` on the
route `blog` of `/pages/blog.js`: the exclusion-by-patterns
characterization holds there. -/
theorem c4_malformed_regex_tolerance_witness :
    shouldExcludePage { defaultOptions with excludePatterns := ["(unterminated".data] }
        "/pages/blog.js".data = true ↔
      ∃ p ∈ ({ defaultOptions with
                excludePatterns := ["(unterminated".data] } : FilterOptions).excludePatterns,
        ∃ re, regexParse p = some re ∧ regexSearch re "blog".data = true :=
  c4_malformed_regex_tolerance.2.1
    { defaultOptions with excludePatterns := ["(unterminated".data] }
    "/pages/blog.js".data "blog".data (by decide) (by decide) (by decide)

/-- C5, counterexample to the claim as stated: on the literal relative
paths of the claim, which contain no slash before the routing
directory, extraction fails (`indexOf` never finds `"/app/"` or
`"/pages/"`), so neither path extracts to `admin/users`. -/
theorem c5_counterexample :
    extractRoutePath defaultOptions (normalizePath "app/admin/users/page.tsx".data)
      ≠ some "admin/users".data
    ∧ extractRoutePath defaultOptions (normalizePath "pages/admin/users.js".data)
      ≠ some "admin/users".data := by
  decide

/-- C5 (amended): with both routing modes enabled and default directory
names, route extraction on the nested-file path
`/app/admin/users/page.tsx` and on the flat-file path
`/pages/admin/users.js` (slash-prefixed, so the directory needles are
found) both yield the route identifier `admin/users`. -/
theorem c5_structural_equivalence :
    extractRoutePath defaultOptions (normalizePath "/app/admin/users/page.tsx".data)
      = some "admin/users".data
    ∧ extractRoutePath defaultOptions (normalizePath "/pages/admin/users.js".data)
      = some "admin/users".data := by
  decide

/-- C6, counterexample to the claim as stated: in the path
`/pages/foo/app/` the nested-routing needle `/app/` occurs, yet the
flat-file rule determines the identifier `foo/app` (the nested
remainder is empty, which is falsy, so the Pages Router branch runs);
with the flat mode disabled the same path extracts to nothing. -/
theorem c6_counterexample :
    containsSub (appNeedle defaultOptions) "/pages/foo/app/".data = true
    ∧ extractRoutePath defaultOptions "/pages/foo/app/".data = some "foo/app".data
    ∧ extractRoutePath { defaultOptions with supportPagesRouter := false }
        "/pages/foo/app/".data = none
    ∧ extractRoutePath { defaultOptions with supportAppRouter := false }
        "/pages/foo/app/".data = some "foo/app".data := by
  decide

/-- C6 (amended): with both routing modes enabled, nested-file
extraction is attempted first, and the flat-file lookup is consulted
only when the nested-routing needle is not found or the remainder
after it is empty — when the needle is absent the result coincides
with flat-only extraction, and when it is present with a non-empty
remainder the result coincides with nested-only extraction. -/
theorem c6_extraction_order :
    ∀ (o : FilterOptions) (nr : Str),
      o.supportAppRouter = true → o.supportPagesRouter = true →
      ((indexOfSub (appNeedle o) nr = none →
          extractRoutePath o nr = extractRoutePath { o with supportAppRouter := false } nr)
        ∧ (∀ i, indexOfSub (appNeedle o) nr = some i →
            nr.drop (i + (appNeedle o).length) ≠ [] →
            extractRoutePath o nr = extractRoutePath { o with supportPagesRouter := false } nr)) := by
  intro o nr hApp hPages
  obtain ⟨inc, exc, pats, pd, ad, sa, sp⟩ := o
  simp only at hApp hPages
  subst hApp
  subst hPages
  constructor
  · intro h
    simp only [appNeedle, List.cons_append] at h
    simp [extractRoutePath, routeDirRemainder, cleanRoutePath, afterNeedle, containsSub,
      appNeedle, pagesNeedle, h, jsFalsy]
  · intro i h hne
    simp only [appNeedle, List.cons_append] at h
    have hne2 : ¬ (List.length nr ≤ i + (List.length ad + 1 + 1)) := by
      intro hle
      apply hne
      apply List.drop_eq_nil_of_le
      simp [appNeedle]
      omega
    simp [extractRoutePath, routeDirRemainder, cleanRoutePath, afterNeedle, containsSub,
      appNeedle, pagesNeedle, h, jsFalsy, hne2]

/-- Witness for C6 at `/app/x/page.tsx`: the needle occurs at index 0
with the non-empty remainder `x/page.tsx`, so extraction agrees with
nested-only extraction there. -/
theorem c6_extraction_order_witness :
    extractRoutePath defaultOptions "/app/x/page.tsx".data
      = extractRoutePath { defaultOptions with supportPagesRouter := false }
          "/app/x/page.tsx".data :=
  (c6_extraction_order defaultOptions "/app/x/page.tsx".data rfl rfl).2
    0 (by decide) (by decide)

/-- C7, counterexample to the claim as stated: the classifier
`isPageFile` applies no flat-convention exceptions — a path under an
API sub-segment and paths with the framework-reserved base names
(`_app`, `_document`, `404`, `500`) addressed through the flat routing
directory are all classified as route files, whereas the claim says
they are not. -/
theorem c7_counterexample :
    isPageFile defaultOptions "/pages/api/users.js".data none = true
    ∧ isPageFile defaultOptions "/pages/_app.js".data none = true
    ∧ isPageFile defaultOptions "/pages/_document.js".data none = true
    ∧ isPageFile defaultOptions "/pages/404.js".data none = true
    ∧ isPageFile defaultOptions "/pages/500.js".data none = true := by
  decide

/-- C7 (amended): for every path with a qualifying source extension
addressed through the configured flat-routing directory, provided the
App Router test does not claim the request, the classifier returns
`true` unconditionally — with no exception for API sub-segments or
framework-reserved base names. -/
theorem c7_flat_classifier_no_exceptions :
    ∀ (o : FilterOptions) (req : Str) (ctx : Option Str),
      o.supportPagesRouter = true →
      pageExtensions.any (fun e => e.isSuffixOf req) = true →
      containsSub (pagesNeedle o) req = true →
      isInApp o req ctx = false →
      isPageFile o req ctx = true := by
  intro o req ctx hsp hext hcont happ
  have hreq : req ≠ [] := by
    intro he
    subst he
    simp [pageExtensions] at hext
  unfold isPageFile
  simp [hreq, hext, happ, isInPages, hsp, hcont]

/-- Witness for C7 at the ordinary flat route file `/pages/about.js`. -/
theorem c7_flat_classifier_no_exceptions_witness :
    isPageFile defaultOptions "/pages/about.js".data none = true :=
  c7_flat_classifier_no_exceptions defaultOptions "/pages/about.js".data none
    rfl (by decide) (by decide) (by decide)

/-- C10: slash-delimited directory recognition — for every normalized
path (under the default configuration, with arbitrary pattern lists)
in which neither `/app/` nor `/pages/` nor `private-next-pages/`
occurs as a substring, extraction returns `none` and the decision is
`excluded = false`; in particular this covers relative paths beginning
with `app/` or `pages/` at position zero. -/
theorem c10_slash_delimited :
    ∀ (inc exc pats : List Str) (path : Str) (ctx : Option Str),
      normalizePath path = path →
      containsSub "/app/".data path = false →
      containsSub "/pages/".data path = false →
      containsSub privateNeedle path = false →
      extractRoutePath
          { defaultOptions with
              includedPages := inc, excludedPages := exc, excludePatterns := pats } path = none
        ∧ decideRequest
          { defaultOptions with
              includedPages := inc, excludedPages := exc, excludePatterns := pats } path ctx
          = false := by
  intro inc exc pats path ctx hn h1 h2 h3
  have happ : appNeedle
      { defaultOptions with
          includedPages := inc, excludedPages := exc, excludePatterns := pats } = "/app/".data := rfl
  have hpg : pagesNeedle
      { defaultOptions with
          includedPages := inc, excludedPages := exc, excludePatterns := pats } = "/pages/".data := rfl
  have hext : extractRoutePath
      { defaultOptions with
          includedPages := inc, excludedPages := exc, excludePatterns := pats } path = none := by
    unfold extractRoutePath routeDirRemainder afterNeedle
    rw [happ, hpg, indexOfSub_none_of_not_contains h1, indexOfSub_none_of_not_contains h2,
      indexOfSub_none_of_not_contains h3]
    simp [jsFalsy]
  refine ⟨hext, ?_⟩
  unfold decideRequest
  have hx : extractRoutePath
      { defaultOptions with
          includedPages := inc, excludedPages := exc, excludePatterns := pats }
      (normalizePath path) = none := by rw [hn]; exact hext
  rw [shouldExcludePage_of_extract_none hx, Bool.and_false]

/-- Witness for C10 at the relative path `app/admin/users/page.tsx`,
which begins with `app/` at position zero and contains none of the
slash-prefixed needles. -/
theorem c10_slash_delimited_witness :
    extractRoutePath
        { defaultOptions with includedPages := [], excludedPages := [], excludePatterns := [] }
        "app/admin/users/page.tsx".data = none
      ∧ decideRequest
        { defaultOptions with includedPages := [], excludedPages := [], excludePatterns := [] }
        "app/admin/users/page.tsx".data none = false :=
  c10_slash_delimited [] [] [] "app/admin/users/page.tsx".data none
    (by decide) (by decide) (by decide) (by decide)

end NBF
